import Mathlib

/-!
Verification of the quota-enforced FRED proxy service (src/main.py).

The development shallowly embeds the service's core: the credential store
and quota enforcer (`verify_api_key`), the upstream client
(`fetch_fred_series`), the CSV transcoder (`observations_to_csv`, which in
the source delegates to Python's `csv.writer` with the default dialect:
comma delimiter, double-quote quoting of fields containing a delimiter,
quote or line break, and CRLF line terminator), the route table built by
`create_endpoints` plus the public `/download` handler, and a two-phase
interleaving model of the enforcer's read-then-write store access.
-/

namespace FredApi

/-- One row of the `api_keys` table in the credential store. -/
structure ApiKeyRecord where
  api_key : String
  request_count : Nat
  request_limit : Nat
deriving DecidableEq, Repr

/-- The credential store: the rows of the `api_keys` table. -/
abbrev Store := List ApiKeyRecord

/-- An HTTP error response, as raised via `HTTPException(status_code, detail)`. -/
structure HTTPError where
  status_code : Nat
  detail : String
deriving DecidableEq, Repr

/-- Rows matching the `eq("api_key", k)` filter of the store query. -/
def keyMatches (x_api_key : String) (r : ApiKeyRecord) : Bool :=
  r.api_key == x_api_key

/-- `verify_api_key` (src/main.py lines 29-42), sequential semantics.
Queries all rows whose `api_key` equals the presented key; 401 if none;
429 if the first match has `request_count >= request_limit`; otherwise
writes `request_count := observed + 1` to every matching row.  Returns
the response outcome paired with the resulting store. -/
def verify_api_key (x_api_key : String) (store : Store) :
    Except HTTPError Unit × Store :=
  match store.filter (keyMatches x_api_key) with
  | [] => (Except.error ⟨401, "Invalid API Key"⟩, store)
  | user :: _ =>
    if user.request_limit ≤ user.request_count then
      (Except.error ⟨429, "Request limit reached. Upgrade your plan."⟩, store)
    else
      (Except.ok (),
        store.map (fun r =>
          if keyMatches x_api_key r then
            { r with request_count := user.request_count + 1 }
          else r))

theorem filter_keyMatches_nil (k : String) (store : Store)
    (h : ∀ r ∈ store, r.api_key ≠ k) :
    store.filter (keyMatches k) = [] :=
  List.filter_eq_nil_iff.mpr (fun r hr => by simp [keyMatches, h r hr])

theorem map_update_fresh (k : String) (c : Nat) (l : Store)
    (h : ∀ r ∈ l, r.api_key ≠ k) :
    l.map (fun r =>
      if keyMatches k r then { r with request_count := c } else r) = l := by
  induction l with
  | nil => rfl
  | cons a l ih =>
    have ha : keyMatches k a = false := by
      simp [keyMatches, h a (List.mem_cons_self a l)]
    simp [ha]
    exact ih (fun r hr => h r (List.mem_cons_of_mem a hr))

/-- Claim C4: a presented key matching no record in the store fails with
`InvalidCredential` (HTTP 401 "Invalid API Key"); the outcome is never
`Authorized` and the store is returned unchanged. -/
theorem c4_unknown_key_rejected (k : String) (store : Store)
    (h : ∀ r ∈ store, r.api_key ≠ k) :
    verify_api_key k store = (Except.error ⟨401, "Invalid API Key"⟩, store) := by
  unfold verify_api_key
  rw [filter_keyMatches_nil k store h]

/-- Witness for C4: the key `nope` is absent from a concrete store and is
rejected with 401, the store left unchanged. -/
theorem c4_unknown_key_rejected_witness :
    verify_api_key "nope" [⟨"k1", 0, 5⟩] =
      (Except.error ⟨401, "Invalid API Key"⟩, [⟨"k1", 0, 5⟩]) :=
  c4_unknown_key_rejected "nope" [⟨"k1", 0, 5⟩] (by decide)

/-- Claim C5: a key whose record has `request_count >= request_limit` at
evaluation time fails with `QuotaExceeded` (HTTP 429) and no record is
mutated: the store is returned unchanged. -/
theorem c5_quota_exceeded_no_mutation (k : String) (store : Store)
    (user : ApiKeyRecord) (rest : Store)
    (hfind : store.filter (keyMatches k) = user :: rest)
    (hlim : user.request_limit ≤ user.request_count) :
    verify_api_key k store =
      (Except.error ⟨429, "Request limit reached. Upgrade your plan."⟩, store) := by
  unfold verify_api_key
  rw [hfind]
  simp [hlim]

/-- Witness for C5: a record at its limit is denied with 429 and the
store is unchanged. -/
theorem c5_quota_exceeded_no_mutation_witness :
    verify_api_key "k1" [⟨"k1", 3, 3⟩] =
      (Except.error ⟨429, "Request limit reached. Upgrade your plan."⟩,
        [⟨"k1", 3, 3⟩]) :=
  c5_quota_exceeded_no_mutation "k1" [⟨"k1", 3, 3⟩] ⟨"k1", 3, 3⟩ []
    (by decide) (by decide)

theorem verify_api_key_charge (k : String) (pre post : Store)
    (user : ApiKeyRecord)
    (hkey : user.api_key = k)
    (hpre : ∀ r ∈ pre, r.api_key ≠ k)
    (hpost : ∀ r ∈ post, r.api_key ≠ k)
    (hlt : user.request_count < user.request_limit) :
    verify_api_key k (pre ++ user :: post) =
      (Except.ok (),
        pre ++ { user with request_count := user.request_count + 1 } :: post) := by
  have huser : keyMatches k user = true := by simp [keyMatches, hkey]
  have hfilter : (pre ++ user :: post).filter (keyMatches k) = [user] := by
    rw [List.filter_append, filter_keyMatches_nil k pre hpre,
      List.filter_cons_of_pos huser, filter_keyMatches_nil k post hpost]
    rfl
  simp only [verify_api_key, hfilter]
  rw [if_neg (Nat.not_le.mpr hlt)]
  simp only [List.map_append, List.map_cons]
  rw [map_update_fresh k _ pre hpre, map_update_fresh k _ post hpost]
  simp [huser]

/-- Claim C6: when the (unique) record for the key exists with
`request_count < request_limit`, the charge succeeds, exactly that one
record is mutated — its `request_count` incremented by exactly 1, every
other record verbatim — and the invariant `request_count <= request_limit`
holds afterwards. -/
theorem c6_successful_charge (k : String) (pre post : Store)
    (user : ApiKeyRecord)
    (hkey : user.api_key = k)
    (hpre : ∀ r ∈ pre, r.api_key ≠ k)
    (hpost : ∀ r ∈ post, r.api_key ≠ k)
    (hlt : user.request_count < user.request_limit) :
    verify_api_key k (pre ++ user :: post) =
      (Except.ok (),
        pre ++ { user with request_count := user.request_count + 1 } :: post) ∧
      user.request_count + 1 ≤ user.request_limit :=
  ⟨verify_api_key_charge k pre post user hkey hpre hpost hlt, by omega⟩

/-- Witness for C6: charging a concrete under-limit record increments its
count by 1 and leaves the other record untouched. -/
theorem c6_successful_charge_witness :
    verify_api_key "k1" [⟨"other", 7, 9⟩, ⟨"k1", 2, 5⟩] =
      (Except.ok (), [⟨"other", 7, 9⟩, ⟨"k1", 3, 5⟩]) ∧ 2 + 1 ≤ 5 := by
  have h := c6_successful_charge "k1" [⟨"other", 7, 9⟩] [] ⟨"k1", 2, 5⟩
    rfl (by decide) (by decide) (by decide)
  exact h

/-! ### Format transcoder: `observations_to_csv` (src/main.py lines 58-64)

The source writes rows through `csv.writer` with the default (`excel`)
dialect: delimiter `,`, quote character `"`, `QUOTE_MINIMAL` (a field is
quoted iff it contains the delimiter, the quote character or a line-break
character, doubling embedded quotes; a record consisting of a single
empty field is also quoted), line terminator CRLF. -/

/-- One FRED observation as used by the source: its `date` and `value`
fields (the value may be the missing-data sentinel `"."`). -/
structure Obs where
  date : String
  value : String
deriving DecidableEq

/-- The parsed upstream JSON payload, of which the source reads only
`data["observations"]`. -/
structure FredData where
  observations : List Obs
deriving DecidableEq

/-- The CRLF record terminator written by `csv.writer`'s default dialect. -/
def crlf : List Char := ['\r', '\n']

/-- `QUOTE_MINIMAL`: a field is quoted iff it contains the delimiter, the
quote character, or a character of the line terminator. -/
def needsQuote (f : List Char) : Bool :=
  f.any (fun c => c == ',' || c == '"' || c == '\r' || c == '\n')

/-- Double every embedded quote character (the `doublequote=True` default). -/
def escapeChars : List Char → List Char
  | [] => []
  | c :: cs =>
    if c = '"' then '"' :: '"' :: escapeChars cs else c :: escapeChars cs

/-- Surround a field with quotes, doubling embedded quotes. -/
def quoteField (f : List Char) : List Char :=
  '"' :: (escapeChars f ++ ['"'])

/-- Render one field under `QUOTE_MINIMAL`. -/
def escapeField (f : List Char) : List Char :=
  if needsQuote f then quoteField f else f

/-- Render the remaining fields of a multi-field record: minimal quoting
only, fields separated by commas, terminated by CRLF. -/
def renderRowAux : List (List Char) → List Char
  | [] => crlf
  | [f] => escapeField f ++ crlf
  | f :: fs => escapeField f ++ ',' :: renderRowAux fs

/-- Render one record: fields separated by commas, terminated by CRLF.
Only a record consisting of exactly one empty field is quoted beyond
minimal quoting (so that the record is not a blank line); an empty field
elsewhere in a record stays unquoted. -/
def renderRow : List (List Char) → List Char
  | [] => crlf
  | [f] => (if needsQuote f || f.isEmpty then quoteField f else f) ++ crlf
  | f :: fs => escapeField f ++ ',' :: renderRowAux fs

/-- Concatenation of the rendered records, as accumulated in the
`io.StringIO` buffer. -/
def renderRows (rows : List (List (List Char))) : List Char :=
  (rows.map renderRow).flatten

/-- The rows the source writes: the header `date,value` then one row per
observation, in input order. -/
def csvRows (data : FredData) : List (List (List Char)) :=
  ["date".data, "value".data] ::
    data.observations.map (fun o => [o.date.data, o.value.data])

/-- `observations_to_csv` (src/main.py lines 58-64): header row then one
row per observation, rendered by `csv.writer` and read back from the
string buffer. -/
def observations_to_csv (data : FredData) : String :=
  String.mk (renderRows (csvRows data))

/-! A reference parser for standard delimited-text (RFC-4180-style)
quoting rules, used to state the round-trip property of claim C3.  It is
defined from the spec's words ("standard delimited-text quoting rules"),
not from the source. -/

/-- Parse the remainder of a quoted field (the opening quote already
consumed): a doubled quote is an embedded quote, a single quote closes
the field. Returns the field and the unconsumed input. -/
def parseQuoted : List Char → Option (List Char × List Char)
  | [] => none
  | c :: rest =>
    if c = '"' then
      match rest with
      | [] => some ([], [])
      | c2 :: rest' =>
        if c2 = '"' then (parseQuoted rest').map (fun p => ('"' :: p.1, p.2))
        else some ([], rest)
    else (parseQuoted rest).map (fun p => (c :: p.1, p.2))

/-- Parse an unquoted field: everything up to the next delimiter or line
break. -/
def parseUnquoted : List Char → List Char × List Char
  | [] => ([], [])
  | c :: rest =>
    if c = ',' ∨ c = '\r' ∨ c = '\n' then ([], c :: rest)
    else
      let p := parseUnquoted rest
      (c :: p.1, p.2)

/-- Parse one field, quoted or unquoted. -/
def parseField : List Char → Option (List Char × List Char)
  | [] => some ([], [])
  | c :: rest =>
    if c = '"' then parseQuoted rest else some (parseUnquoted (c :: rest))

/-- Parse one record: comma-separated fields terminated by CRLF.  The
first argument is recursion fuel. -/
def parseRecord : Nat → List Char → Option (List (List Char) × List Char)
  | 0, _ => none
  | n + 1, s =>
    match parseField s with
    | none => none
    | some (f, r) =>
      match r with
      | [] => none
      | c :: r' =>
        if c = ',' then (parseRecord n r').map (fun p => (f :: p.1, p.2))
        else if c = '\r' then
          match r' with
          | [] => none
          | c2 :: r'' => if c2 = '\n' then some ([f], r'') else none
        else none

/-- Parse a sequence of records until the input is exhausted. -/
def parseRecords : Nat → List Char → Option (List (List (List Char)))
  | 0, _ => none
  | _ + 1, [] => some []
  | n + 1, c :: cs =>
    match parseRecord (n + 1) (c :: cs) with
    | none => none
    | some (row, rest) => (parseRecords n rest).map (fun rs => row :: rs)

/-- Parse a delimited text into its records, with sufficient fuel. -/
def parseCSV (s : List Char) : Option (List (List (List Char))) :=
  parseRecords (s.length + 1) s

/-- The unconsumed input after a field always begins with a separator (a
comma or the CR of the record terminator), or is empty. -/
def sepStart : List Char → Prop
  | [] => True
  | c :: _ => c = ',' ∨ c = '\r'

theorem parseQuoted_escape (f : List Char) :
    ∀ rest, sepStart rest →
      parseQuoted (escapeChars f ++ '"' :: rest) = some (f, rest) := by
  induction f with
  | nil =>
    intro rest h
    match rest with
    | [] => rfl
    | c :: t =>
      rcases h with h | h <;>
        simp [parseQuoted, escapeChars, h]
  | cons c cs ih =>
    intro rest h
    by_cases hc : c = '"'
    · subst hc
      simp [escapeChars, parseQuoted, ih rest h]
    · rw [escapeChars, if_neg hc, List.cons_append, parseQuoted.eq_def]
      simp [hc, ih rest h]

theorem needsQuote_cons (c : Char) (cs : List Char)
    (h : needsQuote (c :: cs) = false) :
    c ≠ ',' ∧ c ≠ '"' ∧ c ≠ '\r' ∧ c ≠ '\n' ∧ needsQuote cs = false := by
  rw [needsQuote, List.any_cons] at h
  obtain ⟨h1, h2⟩ := Bool.or_eq_false_iff.mp h
  refine ⟨?_, ?_, ?_, ?_, h2⟩ <;>
    · intro he
      rw [he] at h1
      simp at h1

theorem parseUnquoted_clean (f : List Char) (hf : needsQuote f = false) :
    ∀ rest, sepStart rest → parseUnquoted (f ++ rest) = (f, rest) := by
  induction f with
  | nil =>
    intro rest h
    match rest with
    | [] => rfl
    | c :: t =>
      rcases h with h | h <;> simp [parseUnquoted, h]
  | cons c cs ih =>
    intro rest h
    obtain ⟨h1, _, h3, h4, h5⟩ := needsQuote_cons c cs hf
    simp [parseUnquoted, h1, h3, h4, ih h5 rest h]

theorem parseField_quoteField (f rest : List Char) (h : sepStart rest) :
    parseField (quoteField f ++ rest) = some (f, rest) := by
  have : quoteField f ++ rest = '"' :: (escapeChars f ++ '"' :: rest) := by
    simp [quoteField]
  rw [this]
  simp [parseField, parseQuoted_escape f rest h]

theorem parseField_escapeField (f rest : List Char) (h : sepStart rest) :
    parseField (escapeField f ++ rest) = some (f, rest) := by
  by_cases hq : needsQuote f
  · rw [escapeField, if_pos hq]
    exact parseField_quoteField f rest h
  · rw [escapeField, if_neg hq]
    match f, hq with
    | [], _ =>
      match rest, h with
      | [], _ => rfl
      | c :: t, h =>
        rcases h with h | h <;> simp [parseField, parseUnquoted, h]
    | c :: cs, hq =>
      have hq' : needsQuote (c :: cs) = false := by simpa using hq
      obtain ⟨_, h2, _, _, _⟩ := needsQuote_cons c cs hq'
      have hu := parseUnquoted_clean (c :: cs) hq' rest h
      rw [List.cons_append] at hu
      rw [List.cons_append, parseField.eq_def]
      simp [h2, hu]

theorem parseField_solo (f rest : List Char) (h : sepStart rest) :
    parseField ((if needsQuote f || f.isEmpty then quoteField f else f)
      ++ rest) = some (f, rest) := by
  by_cases hs : needsQuote f || f.isEmpty
  · rw [if_pos hs]
    exact parseField_quoteField f rest h
  · rw [if_neg hs]
    have hq : needsQuote f = false := by
      cases hnq : needsQuote f with
      | false => rfl
      | true => exact absurd (by simp [hnq]) hs
    have := parseField_escapeField f rest h
    rwa [escapeField, if_neg (by simp [hq])] at this

theorem parseRecord_renderRowAux (fields : List (List Char)) :
    ∀ n rest, fields ≠ [] → fields.length ≤ n →
      parseRecord n (renderRowAux fields ++ rest) = some (fields, rest) := by
  induction fields with
  | nil => intro n rest hne _; exact absurd rfl hne
  | cons f fs ih =>
    intro n rest _ hlen
    obtain ⟨m, rfl⟩ : ∃ m, n = m + 1 := by
      refine ⟨n - 1, ?_⟩
      simp only [List.length_cons] at hlen
      omega
    match fs with
    | [] =>
      have hfld := parseField_escapeField f ('\r' :: '\n' :: rest) (Or.inr rfl)
      rw [show renderRowAux [f] = escapeField f ++ crlf from rfl]
      rw [List.append_assoc]
      rw [parseRecord]
      rw [show crlf ++ rest = '\r' :: '\n' :: rest from rfl, hfld]
      simp
    | f2 :: fs' =>
      have hfs : f2 :: fs' ≠ [] := by simp
      have hm : (f2 :: fs').length ≤ m := by
        simp only [List.length_cons] at hlen ⊢
        omega
      have hfld := parseField_escapeField f
        (',' :: (renderRowAux (f2 :: fs') ++ rest)) (Or.inl rfl)
      rw [show renderRowAux (f :: f2 :: fs') =
        escapeField f ++ ',' :: renderRowAux (f2 :: fs') from rfl]
      rw [List.append_assoc, List.cons_append]
      rw [parseRecord, hfld]
      simp [ih m rest hfs hm]

theorem parseRecord_renderRow (fields : List (List Char)) :
    ∀ n rest, fields ≠ [] → fields.length ≤ n →
      parseRecord n (renderRow fields ++ rest) = some (fields, rest) := by
  intro n rest hne hlen
  match fields, hne with
  | [], hne => exact absurd rfl hne
  | [f], _ =>
    obtain ⟨m, rfl⟩ : ∃ m, n = m + 1 := by
      refine ⟨n - 1, ?_⟩
      simp only [List.length_cons] at hlen
      omega
    have hfld := parseField_solo f ('\r' :: '\n' :: rest) (Or.inr rfl)
    rw [show renderRow [f] =
      (if needsQuote f || f.isEmpty then quoteField f else f) ++ crlf from rfl]
    rw [List.append_assoc]
    rw [parseRecord]
    rw [show crlf ++ rest = '\r' :: '\n' :: rest from rfl, hfld]
    simp
  | f :: f2 :: fs', _ =>
    obtain ⟨m, rfl⟩ : ∃ m, n = m + 1 := by
      refine ⟨n - 1, ?_⟩
      simp only [List.length_cons] at hlen
      omega
    have hfs : f2 :: fs' ≠ [] := by simp
    have hm : (f2 :: fs').length ≤ m := by
      simp only [List.length_cons] at hlen ⊢
      omega
    have hfld := parseField_escapeField f
      (',' :: (renderRowAux (f2 :: fs') ++ rest)) (Or.inl rfl)
    rw [show renderRow (f :: f2 :: fs') =
      escapeField f ++ ',' :: renderRowAux (f2 :: fs') from rfl]
    rw [List.append_assoc, List.cons_append]
    rw [parseRecord, hfld]
    simp [parseRecord_renderRowAux (f2 :: fs') m rest hfs hm]

theorem renderRowAux_length (fields : List (List Char)) :
    fields.length + 1 ≤ (renderRowAux fields).length := by
  induction fields with
  | nil => simp [renderRowAux, crlf]
  | cons f fs ih =>
    match fs with
    | [] =>
      rw [show renderRowAux [f] = escapeField f ++ crlf from rfl]
      simp only [List.length_append, List.length_cons]
      simp [crlf]
    | f2 :: fs' =>
      rw [show renderRowAux (f :: f2 :: fs') =
        escapeField f ++ ',' :: renderRowAux (f2 :: fs') from rfl]
      simp only [List.length_append, List.length_cons] at ih ⊢
      omega

theorem renderRow_length (fields : List (List Char)) (h : fields ≠ []) :
    fields.length + 1 ≤ (renderRow fields).length := by
  match fields, h with
  | [f], _ =>
    rw [show renderRow [f] =
      (if needsQuote f || f.isEmpty then quoteField f else f) ++ crlf from rfl]
    simp only [List.length_append, List.length_cons]
    simp [crlf]
  | f :: f2 :: fs', _ =>
    have h2 := renderRowAux_length (f2 :: fs')
    rw [show renderRow (f :: f2 :: fs') =
      escapeField f ++ ',' :: renderRowAux (f2 :: fs') from rfl]
    simp only [List.length_append, List.length_cons] at h2 ⊢
    omega

theorem parseRecords_renderRows (rows : List (List (List Char))) :
    ∀ n, (∀ r ∈ rows, r ≠ []) → (renderRows rows).length + 1 ≤ n →
      parseRecords n (renderRows rows) = some rows := by
  induction rows with
  | nil =>
    intro n _ hn
    match n, hn with
    | m + 1, _ => rfl
  | cons row rows' ih =>
    intro n hne hn
    have hrow : row ≠ [] := hne row (List.mem_cons_self row rows')
    have hlen := renderRow_length row hrow
    have hflat : renderRows (row :: rows') =
        renderRow row ++ renderRows rows' := by
      simp [renderRows]
    match n, hn with
    | m + 1, hn =>
      obtain ⟨c, cs, hc⟩ : ∃ c cs, renderRow row = c :: cs := by
        match hrr : renderRow row with
        | [] => rw [hrr] at hlen; simp at hlen
        | c :: cs => exact ⟨c, cs, rfl⟩
      have hs : renderRows (row :: rows') = c :: (cs ++ renderRows rows') := by
        rw [hflat, hc, List.cons_append]
      have htot : (renderRow row ++ renderRows rows').length + 1 ≤ m + 1 := by
        rw [← hflat]; exact hn
      rw [hs, parseRecords]
      have hrec := parseRecord_renderRow row (m + 1) (renderRows rows') hrow
        (by
          simp only [List.length_append] at htot
          omega)
      rw [hc, List.cons_append] at hrec
      rw [hrec]
      have hm : (renderRows rows').length + 1 ≤ m := by
        simp only [List.length_append] at htot
        omega
      simp [ih m (fun r hr => hne r (List.mem_cons_of_mem row hr)) hm]

theorem csvRows_ne_nil (data : FredData) :
    ∀ r ∈ csvRows data, r ≠ [] := by
  intro r hr
  rcases List.mem_cons.mp hr with h | h
  · subst h; simp
  · obtain ⟨o, _, ho⟩ := List.mem_map.mp h
    rw [← ho]; simp

/-- Claim C3: round-trip — parsing `observations_to_csv`'s output under
standard delimited-text quoting rules recovers exactly the header row and
the observation rows, in order and with every field (commas, quotes and
line breaks included) unchanged; re-rendering those rows reproduces the
output text byte for byte. -/
theorem c3_csv_round_trip (data : FredData) :
    parseCSV (observations_to_csv data).data = some (csvRows data) ∧
      renderRows (csvRows data) = (observations_to_csv data).data := by
  refine ⟨?_, rfl⟩
  exact parseRecords_renderRows (csvRows data) _ (csvRows_ne_nil data)
    (Nat.le_refl _)

/-- Claim C2 counterexample: on the spec's scenario input the transcoder
does not produce the claimed LF-terminated text (the `csv.writer` default
dialect terminates records with CRLF). -/
theorem c2_counterexample :
    observations_to_csv ⟨[⟨"2020-01-01", "100"⟩, ⟨"2020-02-01", "."⟩]⟩ ≠
      "date,value\n2020-01-01,100\n2020-02-01,.\n" := by
  decide

/-- Claim C2 (amended): the transcoder emits the header `date,value` and
then exactly one row per observation in input order — the missing-value
sentinel preserved verbatim — with records terminated by CRLF; on the
scenario input the output is exactly
`date,value\r\n2020-01-01,100\r\n2020-02-01,.\r\n`. -/
theorem c2_csv_scenario :
    observations_to_csv ⟨[⟨"2020-01-01", "100"⟩, ⟨"2020-02-01", "."⟩]⟩ =
        "date,value\r\n2020-01-01,100\r\n2020-02-01,.\r\n" ∧
      ∀ data : FredData, (observations_to_csv data).data =
        renderRow ["date".data, "value".data] ++
          (data.observations.map
            (fun o => renderRow [o.date.data, o.value.data])).flatten := by
  constructor
  · decide
  · intro data
    simp only [observations_to_csv, csvRows, renderRows, List.map_cons,
      List.flatten_cons, List.map_map]
    rfl

/-! ### Upstream client: `fetch_fred_series` (src/main.py lines 45-55) -/

/-- One upstream HTTP response: its status code, raw body text, and — for
successful responses — the parsed JSON payload. -/
structure UpstreamResp where
  status_code : Nat
  text : String
  body : FredData

/-- The upstream provider, as a function from the query the source builds
(series id plus optional `observation_start` / `observation_end` bounds)
to the response of the single outbound call. -/
structure Upstream where
  respond : String → Option String → Option String → UpstreamResp

/-- `fetch_fred_series` (src/main.py lines 45-55): one outbound call; a
non-200 status is re-raised as an `HTTPException` carrying the upstream
status code and body text verbatim; a 200 response yields its JSON. -/
def fetch_fred_series (u : Upstream) (series_id : String)
    (start_date end_date : Option String) : Except HTTPError FredData :=
  let response := u.respond series_id start_date end_date
  if response.status_code ≠ 200 then
    Except.error ⟨response.status_code, response.text⟩
  else
    Except.ok response.body

/-- Claim C7: a non-success (non-200) upstream response makes
`fetch_fred_series` fail with an error carrying exactly the upstream's
status code and body text, unmodified; no series payload is returned. -/
theorem c7_upstream_error_verbatim (u : Upstream) (series_id : String)
    (start_date end_date : Option String)
    (h : (u.respond series_id start_date end_date).status_code ≠ 200) :
    fetch_fred_series u series_id start_date end_date =
      Except.error ⟨(u.respond series_id start_date end_date).status_code,
        (u.respond series_id start_date end_date).text⟩ := by
  simp [fetch_fred_series, h]

/-- An upstream double that always fails with a 503 and a fixed body. -/
def upstreamDown : Upstream :=
  ⟨fun _ _ _ => ⟨503, "upstream unavailable", ⟨[]⟩⟩⟩

/-- Witness for C7: a concrete 503 upstream response is surfaced with its
status and body untouched. -/
theorem c7_upstream_error_verbatim_witness :
    fetch_fred_series upstreamDown "GDP" none none =
      Except.error ⟨503, "upstream unavailable"⟩ :=
  c7_upstream_error_verbatim upstreamDown "GDP" none none (by decide)

/-! ### Route dispatcher and endpoints (src/main.py lines 66-112) -/

/-- The response payload of a handled request. -/
inductive Payload where
  | json (data : FredData)
  | csvAttachment (text : String) (contentDisposition : String)
  | csvPlain (text : String)
  | html
deriving DecidableEq

/-- The `series_map` dict inside `download_data` (src/main.py lines
74-80): the fixed, case-sensitive table of supported dataset names. -/
def series_map : List (String × String) :=
  [("gdp", "GDP"), ("inflation", "CPIAUCSL"), ("interest-rates", "FEDFUNDS"),
    ("unemployment", "UNRATE"), ("housing-starts", "HOUST")]

/-- The five `create_endpoints` registrations (src/main.py lines
108-112): each registers the literal routes `/{name}` and `/{name}/csv`. -/
def devRoutes : List (String × String) :=
  [("gdp", "GDP"), ("inflation", "CPIAUCSL"), ("interest-rates", "FEDFUNDS"),
    ("unemployment", "UNRATE"), ("housing-starts", "HOUST")]

/-- `download_data` (src/main.py lines 72-93): the public download
handler.  Resolves the dataset, fetches, and renders as JSON or as a CSV
attachment; no credential is read and no store access occurs. -/
def download_data (dataset : String) (start_date end_date : Option String)
    (format : String) (u : Upstream) : Except HTTPError Payload :=
  match List.lookup dataset series_map with
  | none => Except.error ⟨400, "Invalid dataset"⟩
  | some series_id =>
    match fetch_fred_series u series_id start_date end_date with
    | Except.error e => Except.error e
    | Except.ok data =>
      if format = "csv" then
        Except.ok (Payload.csvAttachment (observations_to_csv data)
          ("attachment; filename=" ++ dataset ++ ".csv"))
      else
        Except.ok (Payload.json data)

/-- `get_series` (src/main.py lines 97-99): the credentialed JSON
endpoint.  The `Depends(verify_api_key)` dependency runs — and charges —
before the handler body fetches upstream. -/
def get_series (series_id : String) (start_date end_date : Option String)
    (x_api_key : String) (u : Upstream) (store : Store) :
    Except HTTPError Payload × Store :=
  match verify_api_key x_api_key store with
  | (Except.error e, st) => (Except.error e, st)
  | (Except.ok _, st) =>
    match fetch_fred_series u series_id start_date end_date with
    | Except.error e => (Except.error e, st)
    | Except.ok data => (Except.ok (Payload.json data), st)

/-- `get_series_csv` (src/main.py lines 101-105): the credentialed CSV
endpoint. -/
def get_series_csv (series_id : String) (start_date end_date : Option String)
    (x_api_key : String) (u : Upstream) (store : Store) :
    Except HTTPError Payload × Store :=
  match verify_api_key x_api_key store with
  | (Except.error e, st) => (Except.error e, st)
  | (Except.ok _, st) =>
    match fetch_fred_series u series_id start_date end_date with
    | Except.error e => (Except.error e, st)
    | Except.ok data =>
      (Except.ok (Payload.csvPlain (observations_to_csv data)), st)

/-- A resolved route of the FastAPI app: all registered paths are
literal (`/`, `/download`, and `/{name}`, `/{name}/csv` for the five
names passed to `create_endpoints`); anything else matches no route. -/
inductive Route where
  | home
  | download
  | dev (series_id : String) (wantCsv : Bool)
  | noRoute
deriving DecidableEq

/-- Resolve a request path (as segments) against the registered routes. -/
def resolveRoute (segs : List String) : Route :=
  match segs with
  | [] => Route.home
  | [name] =>
    if name = "download" then Route.download
    else
      match List.lookup name devRoutes with
      | some sid => Route.dev sid false
      | none => Route.noRoute
  | [name, sub] =>
    if sub = "csv" then
      match List.lookup name devRoutes with
      | some sid => Route.dev sid true
      | none => Route.noRoute
    else Route.noRoute
  | _ => Route.noRoute

/-- Dispatch one request: route it, run the matched handler against the
upstream and the credential store, and return the response together with
the resulting store.  An unmatched path is the framework's 404. -/
def dispatch (segs : List String) (dataset : String)
    (start_date end_date : Option String) (format x_api_key : String)
    (u : Upstream) (store : Store) : Except HTTPError Payload × Store :=
  match resolveRoute segs with
  | Route.home => (Except.ok Payload.html, store)
  | Route.download =>
    (download_data dataset start_date end_date format u, store)
  | Route.dev sid wantCsv =>
    if wantCsv then get_series_csv sid start_date end_date x_api_key u store
    else get_series sid start_date end_date x_api_key u store
  | Route.noRoute => (Except.error ⟨404, "Not Found"⟩, store)

/-- Claim C8 counterexample: the developer-path request `GET /gibberish`
with a valid credential is rejected with the framework's 404, not with
`InvalidDataset` (HTTP 400), refuting the claim for the developer path. -/
theorem c8_counterexample :
    (dispatch ["gibberish"] "gibberish" none none "json" "k1" upstreamDown
      [⟨"k1", 0, 5⟩]).1 = Except.error ⟨404, "Not Found"⟩ ∧
    (⟨404, "Not Found"⟩ : HTTPError) ≠ ⟨400, "Invalid dataset"⟩ :=
  ⟨rfl, by decide⟩

/-- Claim C8 (amended): a dataset name outside the fixed case-sensitive
table is always rejected, regardless of credentials: on the public
`/download` path with `InvalidDataset` (HTTP 400), and on the developer
paths — where no route is registered for it — with the framework's 404
Not Found; in neither case is it served. -/
theorem c8_unknown_dataset_rejected (name : String)
    (hpub : List.lookup name series_map = none)
    (hdev : List.lookup name devRoutes = none)
    (hnd : name ≠ "download") :
    ∀ (sd ed : Option String) (fmt key : String) (u : Upstream)
      (store : Store),
      dispatch ["download"] name sd ed fmt key u store =
          (Except.error ⟨400, "Invalid dataset"⟩, store) ∧
        dispatch [name] name sd ed fmt key u store =
          (Except.error ⟨404, "Not Found"⟩, store) ∧
        dispatch [name, "csv"] name sd ed fmt key u store =
          (Except.error ⟨404, "Not Found"⟩, store) := by
  intro sd ed fmt key u store
  refine ⟨?_, ?_, ?_⟩
  · show (download_data name sd ed fmt u, store) = _
    unfold download_data
    rw [hpub]
  · simp [dispatch, resolveRoute, hnd, hdev]
  · simp [dispatch, resolveRoute, hdev]

/-- Witness for C8 (amended): the unknown name `gibberish` is rejected
with 400 on the public path and 404 on both developer paths. -/
theorem c8_unknown_dataset_rejected_witness :
    dispatch ["download"] "gibberish" none none "json" "k1" upstreamDown
        [⟨"k1", 0, 5⟩] =
      (Except.error ⟨400, "Invalid dataset"⟩, [⟨"k1", 0, 5⟩]) ∧
    dispatch ["gibberish"] "gibberish" none none "json" "k1" upstreamDown
        [⟨"k1", 0, 5⟩] =
      (Except.error ⟨404, "Not Found"⟩, [⟨"k1", 0, 5⟩]) ∧
    dispatch ["gibberish", "csv"] "gibberish" none none "json" "k1"
        upstreamDown [⟨"k1", 0, 5⟩] =
      (Except.error ⟨404, "Not Found"⟩, [⟨"k1", 0, 5⟩]) :=
  c8_unknown_dataset_rejected "gibberish" rfl rfl (by decide)
    none none "json" "k1" upstreamDown [⟨"k1", 0, 5⟩]

/-- Claim C9: a request on the public `/download` path — any dataset,
dates and format, with or without a credential header — performs no
credential check and no quota charge: the credential store after
dispatch is exactly the store before. -/
theorem c9_download_leaves_store (dataset : String)
    (sd ed : Option String) (fmt key : String) (u : Upstream)
    (store : Store) :
    (dispatch ["download"] dataset sd ed fmt key u store).2 = store := rfl

/-- Claim C10: on both developer paths — `/{name}` (JSON) and
`/{name}/csv` — the quota charge runs (as the `Depends` auth dependency)
before the upstream fetch, so a request whose fetch fails with an
upstream error has still consumed one quota unit: the response carries
the upstream failure, yet the key's record is already incremented
by 1. -/
theorem c10_failed_fetch_still_charged (name sid : String)
    (hroute : List.lookup name devRoutes = some sid)
    (hnd : name ≠ "download")
    (key : String) (pre post : Store) (user : ApiKeyRecord)
    (hkey : user.api_key = key)
    (hpre : ∀ r ∈ pre, r.api_key ≠ key)
    (hpost : ∀ r ∈ post, r.api_key ≠ key)
    (hlt : user.request_count < user.request_limit)
    (u : Upstream) (sd ed : Option String) (dataset fmt : String)
    (hup : (u.respond sid sd ed).status_code ≠ 200) :
    dispatch [name] dataset sd ed fmt key u (pre ++ user :: post) =
        (Except.error ⟨(u.respond sid sd ed).status_code,
            (u.respond sid sd ed).text⟩,
          pre ++ { user with request_count := user.request_count + 1 }
            :: post) ∧
      dispatch [name, "csv"] dataset sd ed fmt key u (pre ++ user :: post) =
        (Except.error ⟨(u.respond sid sd ed).status_code,
            (u.respond sid sd ed).text⟩,
          pre ++ { user with request_count := user.request_count + 1 }
            :: post) := by
  have hcharge := verify_api_key_charge key pre post user hkey hpre hpost hlt
  constructor
  · simp [dispatch, resolveRoute, hnd, hroute, get_series, hcharge,
      fetch_fred_series, hup]
  · simp [dispatch, resolveRoute, hroute, get_series_csv, hcharge,
      fetch_fred_series, hup]

/-- Witness for C10: a concrete under-limit key, a registered dataset and
a 503 upstream — on both the JSON and the CSV developer route the
response is the upstream error and the count is nonetheless incremented
from 0 to 1. -/
theorem c10_failed_fetch_still_charged_witness :
    dispatch ["gdp"] "gdp" none none "json" "k1" upstreamDown
        [⟨"k1", 0, 5⟩] =
      (Except.error ⟨503, "upstream unavailable"⟩, [⟨"k1", 1, 5⟩]) ∧
    dispatch ["gdp", "csv"] "gdp" none none "json" "k1" upstreamDown
        [⟨"k1", 0, 5⟩] =
      (Except.error ⟨503, "upstream unavailable"⟩, [⟨"k1", 1, 5⟩]) :=
  c10_failed_fetch_still_charged "gdp" "GDP" rfl (by decide) "k1" [] []
    ⟨"k1", 0, 5⟩ rfl (by simp) (by simp) (by decide) upstreamDown
    none none "gdp" "json" (by decide)

/-! ### Concurrency model of `verify_api_key` (src/main.py lines 29-42)

The source performs the quota charge as two independent store calls: a
`select` that reads the record (and applies the 401/429 checks to the
value read) followed by a separate `update` that writes
`observed request_count + 1`.  Between the two calls other in-flight
requests may run their own calls against the shared store.  The model
splits each invocation into exactly those two phases and executes any
interleaving of the phases of concurrent invocations. -/

/-- The state of one in-flight `verify_api_key` invocation:  it has not
yet run its read; it has read `observed` and its write is still pending;
it returned `Authorized`; or it raised an error. -/
inductive PState where
  | ready : PState
  | pending (observed : Nat) : PState
  | authorized : PState
  | denied (e : HTTPError) : PState
deriving DecidableEq

/-- The read phase: the `select ... eq("api_key", k)` call plus the pure
checks the source applies to the value read (401 on no match, 429 when
the observed count has reached the limit). -/
def readPhase (k : String) (store : Store) : PState :=
  match store.filter (keyMatches k) with
  | [] => PState.denied ⟨401, "Invalid API Key"⟩
  | user :: _ =>
    if user.request_limit ≤ user.request_count then
      PState.denied ⟨429, "Request limit reached. Upgrade your plan."⟩
    else
      PState.pending user.request_count

/-- The write phase: the separate `update` call, which sets
`request_count := observed + 1` on every row matching the key — with the
count that was observed in this invocation's read phase, not the current
one. -/
def writePhase (k : String) (observed : Nat) (store : Store) : Store :=
  store.map (fun r =>
    if keyMatches k r then { r with request_count := observed + 1 } else r)

/-- The sequential `verify_api_key` is exactly the read phase followed
immediately by the write phase: the two-phase model refines it when an
invocation's phases run with no interleaved writer. -/
theorem verify_api_key_phases (k : String) (store : Store) :
    verify_api_key k store =
      match readPhase k store with
      | PState.denied e => (Except.error e, store)
      | PState.pending c => (Except.ok (), writePhase k c store)
      | _ => (Except.ok (), store) := by
  rcases hf : store.filter (keyMatches k) with _ | ⟨u, t⟩
  · simp [verify_api_key, readPhase, hf]
  · by_cases hl : u.request_limit ≤ u.request_count <;>
      simp [verify_api_key, readPhase, writePhase, hf, hl]

/-- One scheduler step: run the read phase or the write phase of the
invocation with the given thread id. -/
inductive Step where
  | read (tid : Nat) : Step
  | write (tid : Nat) : Step

/-- Execute a schedule: each step runs the named invocation's next phase
(a read only from `ready`, a write only from `pending`) against the
shared store; other steps change nothing. -/
def runSched (k : String) :
    List Step → Store → List PState → Store × List PState
  | [], store, ps => (store, ps)
  | Step.read t :: rest, store, ps =>
    match ps.getD t PState.authorized with
    | PState.ready => runSched k rest store (ps.set t (readPhase k store))
    | _ => runSched k rest store ps
  | Step.write t :: rest, store, ps =>
    match ps.getD t PState.authorized with
    | PState.pending c =>
      runSched k rest (writePhase k c store) (ps.set t PState.authorized)
    | _ => runSched k rest store ps

/-- The number of invocations that returned `Authorized`. -/
def countAuthorized (ps : List PState) : Nat :=
  ps.countP (fun p => decide (p = PState.authorized))

/-- Claim C1 (the code violates it): for the key `k1` with
`request_count = 0` and `request_limit = 1`, the interleaving in which
two concurrent invocations both run their read phase before either runs
its write phase ends with BOTH invocations `Authorized` — two successful
charges against a limit of 1 — and the stored count at 1, undercounting
the charges.  The read-check-increment sequence is not atomic, so the
claimed bound fails on the code. -/
theorem c1_race_exceeds_limit :
    countAuthorized (runSched "k1"
        [Step.read 0, Step.read 1, Step.write 0, Step.write 1]
        [⟨"k1", 0, 1⟩] [PState.ready, PState.ready]).2 = 2 ∧
      (runSched "k1" [Step.read 0, Step.read 1, Step.write 0, Step.write 1]
        [⟨"k1", 0, 1⟩] [PState.ready, PState.ready]).1 = [⟨"k1", 1, 1⟩] ∧
      (ApiKeyRecord.mk "k1" 0 1).request_limit < 2 := by
  refine ⟨?_, ?_, ?_⟩ <;> decide

end FredApi
